import Mathlib

/-!
Shallow embedding of the OSAL_LINUX peripheral HAL (I2C mock backend,
I2C Linux backend, SPI Linux backend, GPIO Linux backend, expander
driver), with theorems checking the natural-language specification
against the code.

Machine integers are modelled as `Nat` with explicit `% 2^w` where
overflow matters.  The mock temperature update uses `float` in C, but
every float operation there is exact over the reachable value range
(all values are small multiples of 2^-4, well within binary32
precision), so the update is embedded as the exact integer function it
computes.
-/

namespace OSAL

/-- Status codes of the I2C HAL (hal_i2c.h). -/
inductive HAL_I2cStatus where
  | OK
  | EINVAL
  | Eio
  | ENODEV
  | EBUS
deriving DecidableEq, Repr

/-- Status codes of the SPI HAL (hal_spi.h). -/
inductive HAL_SpiStatus where
  | OK
  | EINVAL
  | Eio
  | EBUS
deriving DecidableEq, Repr

/-- Status codes of the GPIO HAL (hal_gpio.h). -/
inductive HAL_GpioStatus where
  | OK
  | EINVAL
  | Eio
  | ECFG
deriving DecidableEq, Repr

namespace Mock

/-!
Mock backend `hal_i2c_mock.c`.  The simulated sensor state is the
single file-scope `static MockTempSensor g_sensor`, a `uint16_t`
`temp_raw_12b`; it is embedded as a `Nat` threaded through the
operations.  The handle struct only stores `bus_name`, `bus_speed_hz`
and `current_addr7`; the sensor state is NOT part of the handle.
-/

/-- The mock handle struct `HAL_I2cBus` of hal_i2c_mock.c: it carries no
sensor state, only the bus name (elided), the speed hint and the
last-addressed device. -/
structure MockBus where
  bus_speed_hz : Nat
  current_addr7 : Nat
deriving DecidableEq, Repr

/-- Initial value of `g_sensor.temp_raw_12b`: 25.0f / 0.0625f = 400 exactly. -/
def g_sensor_init : Nat := 400

/-- Embeds `_encode_temp_bytes`: `v = raw12 << 4` as `uint16_t`, output
`[(v >> 8) & 0xFF, v & 0xFF]`. -/
def encode_temp_bytes (raw12 : Nat) : List Nat :=
  let v := (raw12 * 16) % 65536
  [(v / 256) % 256, v % 256]

/-- Embeds `_mock_update_temp`.  In C: `tempC = raw * 0.0625f + 0.5f`;
`if (tempC > 30.0f) tempC = 25.0f`; `raw = (uint16_t)(tempC / 0.0625f)`.
All float operations are exact for `raw ≤ 65535` (values are multiples
of 2^-4 with ≤ 21 significant bits), so the computation equals: reset to
400 when `(raw + 8)/16 > 30`, i.e. when `480 < raw + 8`, else `raw + 8`
(which is then ≤ 480, so the `uint16_t` cast never truncates). -/
def mock_update_temp (raw : Nat) : Nat :=
  if 480 < raw + 8 then 400 else raw + 8

/-- Embeds mock `HAL_I2c_Probe`: only address 0x48 exists. -/
def HAL_I2c_Probe (bus : MockBus) (addr7 : Nat) : HAL_I2cStatus :=
  let _ := bus
  if addr7 = 0x48 then .OK else .ENODEV

/-- Embeds mock `HAL_I2c_Write` (buffer non-null).  Returns the status,
the updated handle (`_set_addr`) and the updated sensor state: a write
of `[0xF0, lo, ...]` (len ≥ 2) slams `lo` into the low 8 bits of the
sensor raw value, keeping bits 8..11. -/
def HAL_I2c_Write (raw : Nat) (bus : MockBus) (addr7 : Nat)
    (data_out : List Nat) : HAL_I2cStatus × MockBus × Nat :=
  let bus' : MockBus := { bus with current_addr7 := addr7 }
  if addr7 ≠ 0x48 then (.ENODEV, bus', raw)
  else if 2 ≤ data_out.length ∧ data_out.getD 0 0 = 0xF0 then
    (.OK, bus', (raw &&& 0xF00) ||| data_out.getD 1 0)
  else (.OK, bus', raw)

/-- Embeds mock `HAL_I2c_Read` (buffer non-null): for address 0x48 it
first advances the sensor, then fills the buffer with the two encoded
temperature bytes repeating; other addresses get 0xFF fill and ENODEV. -/
def HAL_I2c_Read (raw : Nat) (bus : MockBus) (addr7 : Nat) (len : Nat) :
    HAL_I2cStatus × List Nat × MockBus × Nat :=
  let bus' : MockBus := { bus with current_addr7 := addr7 }
  if addr7 ≠ 0x48 then (.ENODEV, List.replicate len 0xFF, bus', raw)
  else
    let raw' := mock_update_temp raw
    let tbuf := encode_temp_bytes raw'
    (.OK, (List.range len).map (fun i => tbuf.getD (i % 2) 0), bus', raw')

/-- Embeds mock `HAL_I2c_WriteReg8` (buffer non-null): register 0xF0
with ≥ 1 data byte overwrites the low 8 bits of the sensor raw value,
preserving bits 8..11 (`(raw & 0xF00) | data[0]`); everything else only
logs. -/
def HAL_I2c_WriteReg8 (raw : Nat) (bus : MockBus) (addr7 reg : Nat)
    (data_out : List Nat) : HAL_I2cStatus × MockBus × Nat :=
  let bus' : MockBus := { bus with current_addr7 := addr7 }
  if addr7 ≠ 0x48 then (.ENODEV, bus', raw)
  else if reg = 0xF0 ∧ 1 ≤ data_out.length then
    (.OK, bus', (raw &&& 0xF00) ||| data_out.getD 0 0)
  else (.OK, bus', raw)

/-- Embeds mock `HAL_I2c_ReadReg8` (buffer non-null): for address 0x48
it always advances the sensor first, then byte i of the output is the
encoded high byte if `reg + i = 0`, the encoded low byte if
`reg + i = 1`, and 0xFF otherwise; other addresses get 0xEE fill and
ENODEV. -/
def HAL_I2c_ReadReg8 (raw : Nat) (bus : MockBus) (addr7 reg len : Nat) :
    HAL_I2cStatus × List Nat × MockBus × Nat :=
  let bus' : MockBus := { bus with current_addr7 := addr7 }
  if addr7 ≠ 0x48 then (.ENODEV, List.replicate len 0xEE, bus', raw)
  else
    let raw' := mock_update_temp raw
    let tbuf := encode_temp_bytes raw'
    (.OK,
     (List.range len).map (fun i =>
        if reg + i = 0x00 then tbuf.getD 0 0
        else if reg + i = 0x01 then tbuf.getD 1 0
        else 0xFF),
     bus', raw')

end Mock

/-- The decoding prescribed by the spec for a 2-byte temperature read:
`raw12 = (((hi << 8) | lo) >> 4) & 0xFFF`. -/
def decode_raw12 (hi lo : Nat) : Nat :=
  ((hi * 256 + lo) / 16) % 4096

namespace Mock

/-- One `ReadReg8(0x48, 0x00, len=2)` call against the mock: returns the
decoded raw12 of the two bytes and the new sensor state. -/
def mock_read_step (raw : Nat) : Nat × Nat :=
  let r := HAL_I2c_ReadReg8 raw ⟨100000, 0⟩ 0x48 0x00 2
  (decode_raw12 (r.2.1.getD 0 0) (r.2.1.getD 1 0), r.2.2.2)

/-- The decoded raw12 values of `n` sequential `ReadReg8(0x48, 0x00, 2)`
calls starting from sensor state `raw`. -/
def mock_read_trace (raw : Nat) : Nat → List Nat
  | 0 => []
  | n + 1 =>
    let s := mock_read_step raw
    s.1 :: mock_read_trace s.2 n

/-- The quantity observed through a given handle: the decoded raw12 of a
`ReadReg8(0x48, 0x00, len=2)` issued through that handle against the
(process-global) sensor state `raw`. -/
def mock_obs (raw : Nat) (bus : MockBus) : Nat :=
  let r := HAL_I2c_ReadReg8 raw bus 0x48 0x00 2
  decode_raw12 (r.2.1.getD 0 0) (r.2.1.getD 1 0)

/-- The experiment of the testable property in the spec:
`WriteReg8(0x48, 0xF0, [0x20])` followed by `ReadReg8(0x48, 0x00, 2)`,
returning the decoded raw12 of the two bytes the read yields. -/
def mock_override_read (raw : Nat) (bus : MockBus) : Nat :=
  let w := HAL_I2c_WriteReg8 raw bus 0x48 0xF0 [0x20]
  let r := HAL_I2c_ReadReg8 w.2.2 w.2.1 0x48 0x00 2
  decode_raw12 (r.2.1.getD 0 0) (r.2.1.getD 1 0)

end Mock

namespace Linux

/-!
Real Linux backend `hal_i2c_linux.c`.  Kernel interactions (the
`ioctl(I2C_SLAVE)` and `write` syscalls) are abstracted as an
environment; the word width `w` of `size_t` is a parameter (64 on the
target platform), and `size_t` arithmetic is `Nat` arithmetic modulo
`2^w`.
-/

/-- Outcome oracle for the syscalls the Linux I2C backend issues:
whether `ioctl(fd, I2C_SLAVE, addr)` succeeds, and the `ssize_t` result
of `write(fd, buf, len)` as a function of the addressed device and the
buffer contents. -/
structure I2cEnv where
  setAddrOk : Nat → Bool
  writeRes : Nat → List Nat → Int

/-- Embeds `_i2c_set_addr`: ENODEV when the `I2C_SLAVE` ioctl fails. -/
def i2c_set_addr (env : I2cEnv) (addr7 : Nat) : HAL_I2cStatus :=
  if env.setAddrOk addr7 then .OK else .ENODEV

/-- The `(size_t)w` cast applied to the `ssize_t` result of `write`. -/
def size_cast (w : Nat) (x : Int) : Nat :=
  (x % ((2 : Int) ^ w)).toNat

/-- Embeds `HAL_I2c_Write` of the Linux backend (non-null buffer): set
the address, issue one `write` of the whole buffer, EIO unless
`(size_t)` of the result equals the length. -/
def HAL_I2c_Write (w : Nat) (env : I2cEnv) (addr7 : Nat)
    (data_out : List Nat) : HAL_I2cStatus :=
  match i2c_set_addr env addr7 with
  | .OK =>
    if size_cast w (env.writeRes addr7 data_out) = data_out.length then .OK
    else .Eio
  | st => st

/-- Embeds `HAL_I2c_WriteReg8` of the Linux backend (non-null buffer):
the guard `len + 1 > sizeof(tmp)` is computed in `size_t`, i.e. modulo
`2^w`; when it does not fire, `tmp` holds the register byte followed by
the first `(len + 1) % 2^w - 1` data bytes and one `Write` of
`(len + 1) % 2^w` bytes is issued.  (In the non-wrapping case this is
exactly `reg :: data_out`.) -/
def HAL_I2c_WriteReg8 (w : Nat) (env : I2cEnv) (addr7 reg : Nat)
    (data_out : List Nat) : HAL_I2cStatus :=
  if 256 < (data_out.length + 1) % 2 ^ w then .EINVAL
  else HAL_I2c_Write w env addr7
    ((reg :: data_out).take ((data_out.length + 1) % 2 ^ w))

/-- An environment where the addressed device never responds: the
`I2C_SLAVE` ioctl fails for every address. -/
def envNone : I2cEnv := ⟨fun _ => false, fun _ _ => 0⟩

/-- An environment where every address responds and every `write`
transfers the full buffer. -/
def envEcho : I2cEnv := ⟨fun _ => true, fun _ l => (l.length : Int)⟩

/-- A data buffer whose `size_t` length is the maximum value
`2^64 - 1`, so that `len + 1` wraps to 0. -/
def bigData : List Nat := List.replicate (2 ^ 64 - 1) 0

end Linux

namespace Spi

/-!
Linux SPI backend `hal_spi_linux.c`: the part of
`HAL_Spi_TransferSegments` that builds and submits the
`struct spi_ioc_transfer` array.
-/

/-- One `struct spi_ioc_transfer` as filled by the code: the transmit
pointer (`none` for a null `tx_buf`, otherwise the bytes it points at),
whether `rx_buf` is non-null, the length, speed, word size, and the
`cs_change` flag.  A `memset`-zeroed entry is
`⟨none, false, 0, 0, 0, 0⟩`. -/
structure SpiXfer where
  tx_buf : Option (List Nat)
  rx_buf_set : Bool
  len : Nat
  speed_hz : Nat
  bits_per_word : Nat
  cs_change : Nat
deriving DecidableEq, Repr

/-- The fields of `struct HAL_SpiBus` that `TransferSegments` reads. -/
structure SpiBus where
  speed_hz : Nat
  bits_per_word : Nat
deriving DecidableEq, Repr

/-- Embeds the message construction of `HAL_Spi_TransferSegments`: an
array `xfers[2]` is zeroed; `xfers[0]` is filled only when
`tx0 && len0`, `xfers[1]` only when `len1` (with a 0xFF fill pattern
substituted for a null `tx1`); then `ioctl(SPI_IOC_MESSAGE(nxfers),
xfers)` submits the FIRST `nxfers` entries of the array, where
`nxfers = (tx0 && len0) ? (len1 > 0 ? 2 : 1) : (len1 > 0 ? 1 : 0)`. -/
def HAL_Spi_TransferSegments_msg (bus : SpiBus)
    (tx0 : Option (List Nat)) (len0 : Nat)
    (tx1 : Option (List Nat)) (len1 : Nat)
    (rx_set : Bool) : List SpiXfer :=
  let tx1_ptr : Option (List Nat) :=
    if 0 < len1 ∧ tx1 = none then some (List.replicate len1 0xFF) else tx1
  let zeroed : SpiXfer := ⟨none, false, 0, 0, 0, 0⟩
  let x0 : SpiXfer :=
    if tx0 ≠ none ∧ len0 ≠ 0 then
      ⟨tx0, false, len0, bus.speed_hz, bus.bits_per_word, 0⟩
    else zeroed
  let x1 : SpiXfer :=
    if len1 ≠ 0 then
      ⟨tx1_ptr, rx_set, len1, bus.speed_hz, bus.bits_per_word, 0⟩
    else zeroed
  let nxfers : Nat :=
    if tx0 ≠ none ∧ len0 ≠ 0 then (if 0 < len1 then 2 else 1)
    else (if 0 < len1 then 1 else 0)
  List.take nxfers [x0, x1]

/-- Embeds `HAL_Spi_TransferSegments` (null-handle guard, message
construction, ioctl submission with result oracle; the malloc of the
fill pattern is assumed to succeed). -/
def HAL_Spi_TransferSegments (bus : Option SpiBus)
    (tx0 : Option (List Nat)) (len0 : Nat)
    (tx1 : Option (List Nat)) (len1 : Nat)
    (rx_set : Bool) (ioctlRes : List SpiXfer → Int) :
    HAL_SpiStatus × List SpiXfer :=
  match bus with
  | none => (.EINVAL, [])
  | some b =>
    let msg := HAL_Spi_TransferSegments_msg b tx0 len0 tx1 len1 rx_set
    if ioctlRes msg < 0 then (.Eio, msg) else (.OK, msg)

end Spi

namespace Gpio

/-!
Linux GPIO backend `hal_gpio_linux.c`: `HAL_Gpio_WriteLeds`.
-/

/-- The fields of `struct HAL_Gpio` that `WriteLeds` reads. -/
structure GpioHandle where
  led_count : Nat
  leds_active_low : Bool
deriving DecidableEq, Repr

/-- Embeds the `vals[]` loop of `HAL_Gpio_WriteLeds`:
`bit = (value >> i) & 1; vals[i] = leds_active_low ? !bit : bit`. -/
def writeLeds_vals (led_count : Nat) (leds_active_low : Bool)
    (value : Nat) : List Nat :=
  (List.range led_count).map (fun i =>
    let bit := (value >>> i) &&& 1
    if leds_active_low then (if bit = 0 then 1 else 0) else bit)

/-- Embeds `HAL_Gpio_WriteLeds`: EINVAL on a null handle; otherwise the
levels are computed and applied by one `gpiod_line_set_value_bulk`,
whose success is the oracle `bulk_set_ok`; EIO when it fails.  Returns
the status and the electrical levels written. -/
def HAL_Gpio_WriteLeds (h : Option GpioHandle) (value : Nat)
    (bulk_set_ok : Bool) : HAL_GpioStatus × List Nat :=
  match h with
  | none => (.EINVAL, [])
  | some g =>
    let vals := writeLeds_vals g.led_count g.leds_active_low value
    if bulk_set_ok then (.OK, vals) else (.Eio, vals)

/-- Decoder from the round-trip property of the spec: re-apply the polarity
inversion to each written electrical level and reassemble the bits
LSB-first. -/
def decode_leds (leds_active_low : Bool) : List Nat → Nat
  | [] => 0
  | lvl :: rest =>
    (if leds_active_low then (if lvl = 0 then 1 else 0) else lvl)
      + 2 * decode_leds leds_active_low rest

end Gpio

namespace Expander

/-!
Expander driver `expander_drv.c` (MCP23008 register map:
IODIR = 0x00, GPIO = 0x09, OLAT = 0x0A), built only on the abstract
`HAL_I2c_WriteReg8` contract.  The status of the n-th `WriteReg8` call
is an oracle; each function also returns, as a trace, the
`(register, data)` pairs of the writes it actually issued, in order.
-/

def REG_IODIR : Nat := 0x00
def REG_OLAT : Nat := 0x0A

/-- Embeds `Expander_Init` (with `io_ok` standing for the
`io && io->bus` null check): write IODIR := 0x03; if that fails, return
its status without issuing the second write; otherwise write
OLAT := 0x00 and return that status. -/
def Expander_Init (io_ok : Bool) (writeStatus : Nat → HAL_I2cStatus) :
    HAL_I2cStatus × List (Nat × List Nat) :=
  if ¬ io_ok then (.EINVAL, [])
  else
    let st := writeStatus 0
    if st ≠ .OK then (st, [(REG_IODIR, [0x03])])
    else (writeStatus 1, [(REG_IODIR, [0x03]), (REG_OLAT, [0x00])])

/-- A write-status oracle whose first `WriteReg8` fails with EIO and
whose later ones succeed. -/
def wsFirstFails : Nat → HAL_I2cStatus :=
  fun n => if n = 0 then .Eio else .OK

/-- A write-status oracle where every `WriteReg8` succeeds. -/
def wsAllOK : Nat → HAL_I2cStatus := fun _ => .OK

end Expander

end OSAL

namespace OSAL

lemma mock_update_temp_le (raw : Nat) : Mock.mock_update_temp raw ≤ 480 := by
  unfold Mock.mock_update_temp
  split <;> omega

lemma decode_encode (raw : Nat) (h : raw < 4096) :
    decode_raw12 ((Mock.encode_temp_bytes raw).getD 0 0)
      ((Mock.encode_temp_bytes raw).getD 1 0) = raw := by
  simp only [Mock.encode_temp_bytes, decode_raw12, List.getD_cons_zero, List.getD_cons_succ]
  omega

lemma mock_readReg8_at0_len2 (raw : Nat) (bus : Mock.MockBus) :
    Mock.HAL_I2c_ReadReg8 raw bus 0x48 0x00 2 =
      (.OK, Mock.encode_temp_bytes (Mock.mock_update_temp raw),
       { bus with current_addr7 := 0x48 }, Mock.mock_update_temp raw) := rfl

lemma mock_obs_eq (raw : Nat) (bus : Mock.MockBus) :
    Mock.mock_obs raw bus = Mock.mock_update_temp raw := by
  unfold Mock.mock_obs
  rw [mock_readReg8_at0_len2]
  exact decode_encode _ (lt_of_le_of_lt (mock_update_temp_le raw) (by norm_num))

lemma mock_update_twice_ne (raw : Nat) :
    Mock.mock_update_temp (Mock.mock_update_temp raw) ≠ Mock.mock_update_temp raw := by
  by_cases h : 480 < raw + 8
  · simp [Mock.mock_update_temp, h]
  · simp only [Mock.mock_update_temp, if_neg h]
    split <;> omega

/-- C1: starting from the initial raw value 400 (25.0 °C), eleven
sequential `ReadReg8(0x48, 0x00, len=2)` calls against the mock decode
to raw values 408, 416, ..., 480 (25.5 °C rising by 0.5 °C per call up
to 30.0 °C) and then 400 again (the reset to 25.0 °C); moreover every
such call advances the quantity by one update step and returns exactly
its encoding. -/
theorem claim_C1 :
    Mock.g_sensor_init = 400 ∧
    Mock.mock_read_trace Mock.g_sensor_init 11 =
      [408, 416, 424, 432, 440, 448, 456, 464, 472, 480, 400] ∧
    (Mock.mock_read_trace Mock.g_sensor_init 11).map (fun r => (r : ℚ) * 0.0625) =
      [25.5, 26, 26.5, 27, 27.5, 28, 28.5, 29, 29.5, 30, 25] ∧
    ∀ raw bus,
      (Mock.HAL_I2c_ReadReg8 raw bus 0x48 0x00 2).2.2.2 = Mock.mock_update_temp raw ∧
      decode_raw12 ((Mock.HAL_I2c_ReadReg8 raw bus 0x48 0x00 2).2.1.getD 0 0)
        ((Mock.HAL_I2c_ReadReg8 raw bus 0x48 0x00 2).2.1.getD 1 0) =
        Mock.mock_update_temp raw := by
  have htrace : Mock.mock_read_trace Mock.g_sensor_init 11 =
      [408, 416, 424, 432, 440, 448, 456, 464, 472, 480, 400] := by decide
  refine ⟨rfl, htrace, ?_, ?_⟩
  · rw [htrace]
    norm_num
  · intro raw bus
    constructor
    · rw [mock_readReg8_at0_len2]
    · rw [mock_readReg8_at0_len2]
      exact decode_encode _ (lt_of_le_of_lt (mock_update_temp_le raw) (by norm_num))

/-- C3 counterexample: from the initial state 400 = 0x190, the write
merges to 0x120, but the subsequent read decodes to 0x128 (the read
itself advanced the quantity by one step), not to the merged value
0x120 the claim describes. -/
theorem claim_C3_counterexample :
    Mock.mock_override_read 400 ⟨100000, 0⟩ = 0x128 ∧
    (400 &&& 0xF00) ||| 0x20 = 0x120 ∧ (0x128 : Nat) ≠ 0x120 := by decide

/-- C3 amended: `WriteReg8(0x48, 0xF0, [0x20])` overwrites the low 8
bits of the quantity preserving the high nibble, and the subsequent
`ReadReg8(0x48, 0x00, len=2)` returns that merged value advanced by one
drift step (the read advances the quantity before encoding). -/
theorem claim_C3 (raw : Nat) (bus : Mock.MockBus) :
    Mock.HAL_I2c_WriteReg8 raw bus 0x48 0xF0 [0x20] =
      (.OK, { bus with current_addr7 := 0x48 }, (raw &&& 0xF00) ||| 0x20) ∧
    Mock.mock_override_read raw bus =
      Mock.mock_update_temp ((raw &&& 0xF00) ||| 0x20) := by
  have hw : Mock.HAL_I2c_WriteReg8 raw bus 0x48 0xF0 [0x20] =
      (.OK, { bus with current_addr7 := 0x48 }, (raw &&& 0xF00) ||| 0x20) := rfl
  refine ⟨hw, ?_⟩
  unfold Mock.mock_override_read
  simp only [hw]
  rw [mock_readReg8_at0_len2]
  exact decode_encode _
    (lt_of_le_of_lt (mock_update_temp_le _) (by norm_num))

/-- C4: on the mock backend every operation addressed to a device other
than 0x48 returns ENODEV, leaves the sensor state unchanged, and the
output-buffer operations fill the buffer with the sentinel (0xFF for
raw Read, 0xEE for ReadReg8). -/
theorem claim_C4 (raw : Nat) (bus : Mock.MockBus) (addr reg len : Nat)
    (data : List Nat) (h : addr ≠ 0x48) :
    Mock.HAL_I2c_Probe bus addr = .ENODEV ∧
    Mock.HAL_I2c_Write raw bus addr data =
      (.ENODEV, { bus with current_addr7 := addr }, raw) ∧
    Mock.HAL_I2c_Read raw bus addr len =
      (.ENODEV, List.replicate len 0xFF, { bus with current_addr7 := addr }, raw) ∧
    Mock.HAL_I2c_WriteReg8 raw bus addr reg data =
      (.ENODEV, { bus with current_addr7 := addr }, raw) ∧
    Mock.HAL_I2c_ReadReg8 raw bus addr reg len =
      (.ENODEV, List.replicate len 0xEE, { bus with current_addr7 := addr }, raw) := by
  refine ⟨?_, ?_, ?_, ?_, ?_⟩ <;>
    simp [Mock.HAL_I2c_Probe, Mock.HAL_I2c_Write, Mock.HAL_I2c_Read,
      Mock.HAL_I2c_WriteReg8, Mock.HAL_I2c_ReadReg8, h]

theorem claim_C4_witness :
    Mock.HAL_I2c_Probe ⟨0, 0⟩ 0x50 = .ENODEV ∧
    Mock.HAL_I2c_Read 400 ⟨0, 0⟩ 0x50 3 =
      (.ENODEV, List.replicate 3 0xFF, ⟨0, 0x50⟩, 400) ∧
    Mock.HAL_I2c_ReadReg8 400 ⟨0, 0⟩ 0x50 0 3 =
      (.ENODEV, List.replicate 3 0xEE, ⟨0, 0x50⟩, 400) := by
  have h := claim_C4 400 ⟨0, 0⟩ 0x50 0 3 [1] (by decide)
  exact ⟨h.1, h.2.2.1, h.2.2.2.2⟩

/-- C5 counterexample: two mock handles opened separately (only the
sensor state 400 is process-global); a read through the first handle
advances the shared quantity, so the quantity then observed through the
second handle is 416 instead of the 408 it would observe had the first
operation of the first handle not aliased its state. -/
theorem claim_C5_counterexample :
    Mock.mock_obs 400 ⟨200, 0⟩ = 408 ∧
    Mock.mock_obs ((Mock.HAL_I2c_ReadReg8 400 ⟨100, 0⟩ 0x48 0x00 2).2.2.2) ⟨200, 0⟩ = 416 ∧
    (416 : Nat) ≠ 408 := by decide

/-- C5 amended: the simulated peripheral state is one file-scope global
(`g_sensor`) shared by every mock handle in the process: a read issued
through one handle always changes the quantity subsequently observed
through any other handle. -/
theorem claim_C5 (raw : Nat) (busA busB : Mock.MockBus) :
    Mock.mock_obs ((Mock.HAL_I2c_ReadReg8 raw busA 0x48 0x00 2).2.2.2) busB ≠
      Mock.mock_obs raw busB := by
  simp only [mock_readReg8_at0_len2, mock_obs_eq]
  exact mock_update_twice_ne raw

/-- C9: on the mock backend every `ReadReg8` addressed to 0x48 returns
OK and advances the quantity by one drift step regardless of the
register; for registers ≥ 2 (entirely unknown) the returned bytes are
all 0xFF. -/
theorem claim_C9 (raw : Nat) (bus : Mock.MockBus) (reg len : Nat) :
    (Mock.HAL_I2c_ReadReg8 raw bus 0x48 reg len).1 = .OK ∧
    (Mock.HAL_I2c_ReadReg8 raw bus 0x48 reg len).2.2.2 = Mock.mock_update_temp raw ∧
    (2 ≤ reg →
      (Mock.HAL_I2c_ReadReg8 raw bus 0x48 reg len).2.1 = List.replicate len 0xFF) := by
  refine ⟨by simp [Mock.HAL_I2c_ReadReg8], by simp [Mock.HAL_I2c_ReadReg8], ?_⟩
  intro h
  have hc : ∀ a ∈ List.range len,
      (fun i =>
        if reg + i = 0x00 then (Mock.encode_temp_bytes (Mock.mock_update_temp raw)).getD 0 0
        else if reg + i = 0x01 then (Mock.encode_temp_bytes (Mock.mock_update_temp raw)).getD 1 0
        else (0xFF : Nat)) a = (fun _ => (0xFF : Nat)) a := by
    intro a _
    simp only
    rw [if_neg (by omega), if_neg (by omega)]
  have hstep : Mock.HAL_I2c_ReadReg8 raw bus 0x48 reg len =
      (.OK, (List.range len).map (fun i =>
        if reg + i = 0x00 then (Mock.encode_temp_bytes (Mock.mock_update_temp raw)).getD 0 0
        else if reg + i = 0x01 then (Mock.encode_temp_bytes (Mock.mock_update_temp raw)).getD 1 0
        else (0xFF : Nat)),
       { bus with current_addr7 := 0x48 }, Mock.mock_update_temp raw) := rfl
  rw [hstep]
  show (List.range len).map _ = _
  rw [List.map_congr_left hc, List.map_const', List.length_range]

theorem claim_C9_witness :
    (Mock.HAL_I2c_ReadReg8 400 ⟨0, 0⟩ 0x48 5 3).1 = .OK ∧
    (Mock.HAL_I2c_ReadReg8 400 ⟨0, 0⟩ 0x48 5 3).2.2.2 = Mock.mock_update_temp 400 ∧
    (Mock.HAL_I2c_ReadReg8 400 ⟨0, 0⟩ 0x48 5 3).2.1 = List.replicate 3 0xFF := by
  have h := claim_C9 400 ⟨0, 0⟩ 5 3
  exact ⟨h.1, h.2.1, h.2.2 (by decide)⟩

end OSAL

namespace OSAL

lemma linux_Write_ne_EINVAL (w : Nat) (env : Linux.I2cEnv) (addr : Nat)
    (data : List Nat) : Linux.HAL_I2c_Write w env addr data ≠ .EINVAL := by
  unfold Linux.HAL_I2c_Write Linux.i2c_set_addr
  rcases env.setAddrOk addr <;> simp
  split <;> simp

/-- C2: the code fails the claimed phase omission.  With a zero-length
phase 0 and a 4-byte phase 1 the call submits exactly one transfer, but
it is the never-populated zeroed `xfers[0]` (no tx, no rx, length 0),
not the phase-1 transfer; the whole call then reports OK while the
phase-1 bytes were never sent and rx was never captured. -/
theorem claim_C2 :
    Spi.HAL_Spi_TransferSegments_msg ⟨500000, 8⟩ none 0 (some [0x0A, 0x0B, 0x0C, 0x0D]) 4 true
      = [⟨none, false, 0, 0, 0, 0⟩] ∧
    (⟨none, false, 0, 0, 0, 0⟩ : Spi.SpiXfer)
      ≠ ⟨some [0x0A, 0x0B, 0x0C, 0x0D], true, 4, 500000, 8, 0⟩ ∧
    Spi.HAL_Spi_TransferSegments (some ⟨500000, 8⟩) none 0
        (some [0x0A, 0x0B, 0x0C, 0x0D]) 4 true (fun _ => 0)
      = (.OK, [⟨none, false, 0, 0, 0, 0⟩]) := by
  refine ⟨by decide, by decide, ?_⟩
  rfl

/-- C6 counterexample: for a buffer of the maximum `size_t` length
`2^64 - 1`, `len + 1` wraps to 0, the 256-byte guard does not fire, and
the call returns ENODEV from the address step instead of the claimed
InvalidArgument even though `len + 1` exceeds the buffer ceiling. -/
theorem claim_C6_counterexample :
    256 < Linux.bigData.length + 1 ∧
    Linux.HAL_I2c_WriteReg8 64 Linux.envNone 0x48 0x00 Linux.bigData = .ENODEV ∧
    Linux.HAL_I2c_WriteReg8 64 Linux.envNone 0x48 0x00 Linux.bigData ≠ .EINVAL := by
  have hlen : Linux.bigData.length = 2 ^ 64 - 1 := List.length_replicate _ _
  have hmod : (Linux.bigData.length + 1) % 2 ^ 64 = 0 := by
    rw [hlen, Nat.sub_add_cancel Nat.one_le_two_pow, Nat.mod_self]
  have hval : Linux.HAL_I2c_WriteReg8 64 Linux.envNone 0x48 0x00 Linux.bigData = .ENODEV := by
    unfold Linux.HAL_I2c_WriteReg8
    rw [hmod]
    simp [Linux.HAL_I2c_Write, Linux.i2c_set_addr, Linux.envNone]
  refine ⟨?_, hval, by rw [hval]; simp⟩
  rw [hlen]
  norm_num

/-- C6 amended: on the real backend `WriteReg8(handle, addr, reg,
bytes)` equals `Write(handle, addr, [reg] ++ bytes)` — one transaction
with the selector byte prepended — whenever `len(bytes) + 1 ≤ 256`, and
it returns InvalidArgument when `len(bytes) + 1` exceeds 256 without
wrapping modulo `2^64`; at `len = 2^64 - 1` the wrapped sum bypasses
the guard (see the counterexample). -/
theorem claim_C6 (env : Linux.I2cEnv) (addr reg : Nat) (data : List Nat) :
    (data.length + 1 ≤ 256 →
      Linux.HAL_I2c_WriteReg8 64 env addr reg data =
        Linux.HAL_I2c_Write 64 env addr (reg :: data)) ∧
    (256 < data.length + 1 → data.length + 1 < 2 ^ 64 →
      Linux.HAL_I2c_WriteReg8 64 env addr reg data = .EINVAL) := by
  constructor
  · intro hle
    have hmod : (data.length + 1) % 2 ^ 64 = data.length + 1 :=
      Nat.mod_eq_of_lt (lt_of_le_of_lt hle (by norm_num))
    unfold Linux.HAL_I2c_WriteReg8
    rw [hmod, if_neg (by omega)]
    congr 1
    have : data.length + 1 = (reg :: data).length := by simp
    rw [this, List.take_length]
  · intro hgt hlt
    have hmod : (data.length + 1) % 2 ^ 64 = data.length + 1 :=
      Nat.mod_eq_of_lt hlt
    unfold Linux.HAL_I2c_WriteReg8
    rw [hmod, if_pos hgt]

theorem claim_C6_witness :
    Linux.HAL_I2c_WriteReg8 64 Linux.envEcho 0x48 0x10 [0x11] =
      Linux.HAL_I2c_Write 64 Linux.envEcho 0x48 [0x10, 0x11] ∧
    Linux.HAL_I2c_WriteReg8 64 Linux.envEcho 0x00 0x00 (List.replicate 300 0) = .EINVAL := by
  refine ⟨(claim_C6 Linux.envEcho 0x48 0x10 [0x11]).1 (by norm_num), ?_⟩
  exact (claim_C6 Linux.envEcho 0x00 0x00 (List.replicate 300 0)).2
    (by rw [List.length_replicate]; norm_num) (by rw [List.length_replicate]; norm_num)

/-- C7: `Expander_Init` issues the direction write IODIR := 0x03 first;
if it fails the call returns that status without issuing the second
write, otherwise it issues OLAT := 0x00 and returns the status of
that second write; when both succeed it returns OK. -/
theorem claim_C7 (ws : Nat → HAL_I2cStatus) :
    (ws 0 ≠ .OK →
      Expander.Expander_Init true ws = (ws 0, [(Expander.REG_IODIR, [0x03])])) ∧
    (ws 0 = .OK →
      Expander.Expander_Init true ws =
        (ws 1, [(Expander.REG_IODIR, [0x03]), (Expander.REG_OLAT, [0x00])])) ∧
    (ws 0 = .OK → ws 1 = .OK → (Expander.Expander_Init true ws).1 = .OK) := by
  refine ⟨?_, ?_, ?_⟩
  · intro h
    simp [Expander.Expander_Init, h]
  · intro h
    simp [Expander.Expander_Init, h]
  · intro h0 h1
    simp [Expander.Expander_Init, h0, h1]

theorem claim_C7_witness :
    Expander.Expander_Init true Expander.wsFirstFails =
      (.Eio, [(Expander.REG_IODIR, [0x03])]) ∧
    Expander.Expander_Init true Expander.wsAllOK =
      (.OK, [(Expander.REG_IODIR, [0x03]), (Expander.REG_OLAT, [0x00])]) := by
  constructor
  · have h := (claim_C7 Expander.wsFirstFails).1 (by decide)
    simpa [Expander.wsFirstFails] using h
  · have h := (claim_C7 Expander.wsAllOK).2.1 (by decide)
    simpa [Expander.wsAllOK] using h

lemma writeLeds_vals_succ (n : Nat) (pol : Bool) (v : Nat) :
    Gpio.writeLeds_vals (n + 1) pol v =
      (if pol then (if v &&& 1 = 0 then 1 else 0) else v &&& 1)
        :: Gpio.writeLeds_vals n pol (v / 2) := by
  unfold Gpio.writeLeds_vals
  rw [List.range_succ_eq_map, List.map_cons, List.map_map]
  congr 1
  apply List.map_congr_left
  intro a _
  simp only [Function.comp_apply, Nat.shiftRight_eq_div_pow]
  have h2 : v / 2 ^ (a + 1) = v / 2 / 2 ^ a := by
    rw [Nat.div_div_eq_div_mul, ← pow_succ']
  rw [h2]

lemma decode_writeLeds (pol : Bool) :
    ∀ (n v : Nat), Gpio.decode_leds pol (Gpio.writeLeds_vals n pol v) = v % 2 ^ n := by
  intro n
  induction n with
  | zero =>
    intro v
    simp [Gpio.writeLeds_vals, Gpio.decode_leds, Nat.mod_one]
  | succ n ih =>
    intro v
    rw [writeLeds_vals_succ, Gpio.decode_leds, ih]
    have hhead : (if pol then
        (if (if pol then (if v &&& 1 = 0 then 1 else 0) else v &&& 1) = 0 then 1 else 0)
        else (if pol then (if v &&& 1 = 0 then 1 else 0) else v &&& 1)) = v % 2 := by
      rcases pol with _ | _
      · simp [Nat.and_one_is_mod]
      · simp only [Nat.and_one_is_mod]
        rcases Nat.mod_two_eq_zero_or_one v with h | h <;> simp [h]
    rw [hhead, pow_succ', Nat.mod_mul]

lemma writeLeds_vals_xor (n : Nat) (pol : Bool) (v : Nat) :
    Gpio.writeLeds_vals n pol v =
      (List.range n).map (fun i => ((v >>> i) &&& 1) ^^^ (if pol then 1 else 0)) := by
  unfold Gpio.writeLeds_vals
  apply List.map_congr_left
  intro a _
  simp only
  have hb : (v >>> a) &&& 1 = 0 ∨ (v >>> a) &&& 1 = 1 := by
    rw [Nat.and_one_is_mod]
    omega
  rcases pol with _ | _
  · simp
  · rcases hb with hb | hb <;> rw [hb] <;> decide

/-- C8: for every value and both polarity settings, `WriteLeds` drives
output i to `bit_i(value) XOR polarity` in one bulk write, and decoding
the written levels with the same polarity flag reproduces the value
modulo the configured output count (exactly, when all 8 outputs are
configured); a null handle gives EINVAL and a failed bulk write gives
EIO. -/
theorem claim_C8 (g : Gpio.GpioHandle) (v : Nat) (ok : Bool)
    (hv : v < 256) (_hn1 : 1 ≤ g.led_count) (_hn8 : g.led_count ≤ 8) :
    (Gpio.HAL_Gpio_WriteLeds (some g) v ok).2 =
      (List.range g.led_count).map
        (fun i => ((v >>> i) &&& 1) ^^^ (if g.leds_active_low then 1 else 0)) ∧
    Gpio.decode_leds g.leds_active_low (Gpio.HAL_Gpio_WriteLeds (some g) v ok).2 =
      v % 2 ^ g.led_count ∧
    (g.led_count = 8 →
      Gpio.decode_leds g.leds_active_low (Gpio.HAL_Gpio_WriteLeds (some g) v ok).2 = v) ∧
    (Gpio.HAL_Gpio_WriteLeds (some g) v ok).1 = (if ok then .OK else .Eio) ∧
    Gpio.HAL_Gpio_WriteLeds none v ok = (.EINVAL, []) := by
  have hsnd : (Gpio.HAL_Gpio_WriteLeds (some g) v ok).2 =
      Gpio.writeLeds_vals g.led_count g.leds_active_low v := by
    unfold Gpio.HAL_Gpio_WriteLeds
    rcases ok <;> simp
  refine ⟨?_, ?_, ?_, ?_, rfl⟩
  · rw [hsnd, writeLeds_vals_xor]
  · rw [hsnd, decode_writeLeds]
  · intro h8
    rw [hsnd, decode_writeLeds, h8]
    exact Nat.mod_eq_of_lt (by norm_num [hv] )
  · unfold Gpio.HAL_Gpio_WriteLeds
    rcases ok <;> simp

theorem claim_C8_witness :
    (Gpio.HAL_Gpio_WriteLeds (some ⟨8, true⟩) 0xA5 true).2 =
      (List.range 8).map (fun i => ((0xA5 >>> i) &&& 1) ^^^ 1) ∧
    Gpio.decode_leds true (Gpio.HAL_Gpio_WriteLeds (some ⟨8, true⟩) 0xA5 true).2 = 0xA5 ∧
    (Gpio.HAL_Gpio_WriteLeds (some ⟨8, true⟩) 0xA5 true).1 = .OK := by
  have h := claim_C8 ⟨8, true⟩ 0xA5 true (by decide) (by decide) (by decide)
  exact ⟨by simpa using h.1, h.2.2.1 rfl, by simpa using h.2.2.2.1⟩

/-- C10: in the real-backend `WriteReg8` the oversize guard is `size_t`
arithmetic modulo `2^w`: at the maximum length `2^w - 1` the sum
`len + 1` wraps to 0, the guard does not fire, and the call proceeds to
the write path instead of returning InvalidArgument from that check. -/
theorem claim_C10 (w : Nat) (env : Linux.I2cEnv) (addr reg : Nat)
    (data : List Nat) (hlen : data.length = 2 ^ w - 1) :
    (data.length + 1) % 2 ^ w = 0 ∧
    Linux.HAL_I2c_WriteReg8 w env addr reg data =
      Linux.HAL_I2c_Write w env addr [] ∧
    Linux.HAL_I2c_WriteReg8 w env addr reg data ≠ .EINVAL := by
  have hmod : (data.length + 1) % 2 ^ w = 0 := by
    rw [hlen, Nat.sub_add_cancel Nat.one_le_two_pow, Nat.mod_self]
  have heq : Linux.HAL_I2c_WriteReg8 w env addr reg data =
      Linux.HAL_I2c_Write w env addr [] := by
    unfold Linux.HAL_I2c_WriteReg8
    rw [hmod]
    simp
  refine ⟨hmod, heq, ?_⟩
  rw [heq]
  exact linux_Write_ne_EINVAL w env addr []

theorem claim_C10_witness :
    (Linux.bigData.length + 1) % 2 ^ 64 = 0 ∧
    Linux.HAL_I2c_WriteReg8 64 Linux.envNone 0x48 0x00 Linux.bigData ≠ .EINVAL := by
  have h := claim_C10 64 Linux.envNone 0x48 0x00 Linux.bigData (List.length_replicate _ _)
  exact ⟨h.1, h.2.2⟩

end OSAL
